import Mathlib

/-!
Verification development for the Cartesi rollup ledger node.

The repository contains three JavaScript variants of the node:
* part_000: binary-deposit + JSON settle (win/loss) advance handler,
  JSON balance-query inspect handler, status-threading main loop;
* part_001: JSON deposit/transfer advance handler, JSON balance-query
  inspect handler (whose error path sends no report), a main loop that
  always fetches with status accept;
* src/index.js: binary-deposit-only advance handler, the same inspect
  handler as part_000, and the same status-threading main loop.

The development embeds the ledger state, the payload codec (including a
JSON parser modelling the JSON.parse library call restricted to integer
number literals), the advance/inspect handlers of each variant and the
main loops, and proves or refutes the frozen specification claims.
-/

namespace CartesiNode

/-- One byte of a raw payload (JS Uint8Array element). -/
abbrev Byte := Fin 256

/-- Ledger: map from address-string key to balance.  Absent keys read as 0,
matching the JS coalescing idioms (balances[k] or 0) and the fact that the
falsy test !balances[k] does not distinguish an absent key from a stored 0. -/
abbrev Ledger := String → Int

/-- The empty ledger at process start. -/
def emptyLedger : Ledger := fun _ => 0

/-- Store a balance under a key (JS balances[k] = v). -/
def updBal (st : Ledger) (k : String) (v : Int) : Ledger :=
  fun x => if x = k then v else st x

/-- Outbound events sent to the rollup host. -/
inductive Ev where
  | notice (msg : String)
  | report (msg : String)
  | voucher (dest : String) (amount : Int)
deriving DecidableEq

/-- JSON values, the results of the JSON.parse library call.  Number
literals are modelled as integers: fractional and exponent literals are
outside the model (see parseJson). -/
inductive Json where
  | null
  | bool (b : Bool)
  | num (n : Int)
  | str (s : String)
  | arr (elems : List Json)
  | obj (fields : List (String × Json))

/-- Property access parsed.key on a JSON value: objects yield the value of
the last field with that name (JSON.parse keeps the last duplicate), every
other value yields undefined (none). -/
def jsGet : Json → String → Option Json
  | .obj fields, key =>
      fields.foldl (fun acc kv => if kv.1 = key then some kv.2 else acc) none
  | _, _ => none

/-- JS truthiness of a value. -/
def jsTruthyV : Json → Bool
  | .null => false
  | .bool b => b
  | .num n => decide (n ≠ 0)
  | .str s => decide (s ≠ "")
  | .arr _ => true
  | .obj _ => true

/-- JS truthiness of a possibly-undefined value (undefined is falsy). -/
def jsTruthy : Option Json → Bool
  | none => false
  | some v => jsTruthyV v

/-- JS loose equality with null (v == null holds exactly for null and
undefined). -/
def jsNullish : Option Json → Bool
  | none => true
  | some .null => true
  | some _ => false

/-- typeof v === "object" for a parsed JSON value: arrays, objects and
null (the code combines this test with truthiness, which rules null
out). -/
def isObjLike : Json → Bool
  | .null => true
  | .arr _ => true
  | .obj _ => true
  | _ => false

mutual

/-- JS String() coercion of a parsed JSON value (used when a value is
taken as an object property key or interpolated into a message). -/
def jsToStr : Json → String
  | .null => "null"
  | .bool b => cond b "true" "false"
  | .num n => toString n
  | .str s => s
  | .arr xs => jsToStrList xs
  | .obj _ => "[object Object]"

/-- Array elements joined by commas (JS Array.prototype.toString). -/
def jsToStrList : List Json → String
  | [] => ""
  | [x] => jsToStrElem x
  | x :: xs => jsToStrElem x ++ "," ++ jsToStrList xs

/-- Inside an array, null prints as the empty string. -/
def jsToStrElem : Json → String
  | .null => ""
  | .bool b => cond b "true" "false"
  | .num n => toString n
  | .str s => s
  | .arr xs => jsToStrList xs
  | .obj _ => "[object Object]"

end

/-- JS Number() coercion, restricted to the integer model: none encodes
NaN or a non-integer result, which the development treats as outside the
model (the JS code would propagate NaN into a balance). -/
def jsNumber : Json → Option Int
  | .null => some 0
  | .bool b => some (cond b 1 0)
  | .num n => some n
  | .str s =>
      match s.data with
      | [] => some 0
      | '-' :: c :: cs =>
          if c.isDigit ∧ (c :: cs).all Char.isDigit then
            some (-(((c :: cs).foldl (fun acc d => acc * 10 + (d.toNat - 48)) 0 : Nat) : Int))
          else none
      | c :: cs =>
          if c.isDigit ∧ (c :: cs).all Char.isDigit then
            some (((c :: cs).foldl (fun acc d => acc * 10 + (d.toNat - 48)) 0 : Nat) : Int)
          else none
  | .arr _ => none
  | .obj _ => none

/-- Decode raw payload bytes to the string the handlers work on.  The JS
code uses fromHex/hexToString (UTF-8); the model maps each byte to the
code point of the same value, which classifies every payload relevant to
the claims identically. -/
def bytesToString (p : List Byte) : String :=
  ⟨p.map (fun b => Char.ofNat b.val)⟩

/-- Encode an ASCII string as payload bytes (inverse of bytesToString on
ASCII data, used to build concrete witness payloads). -/
def strToBytes (s : String) : List Byte :=
  s.data.map (fun c => ⟨c.toNat % 256, Nat.mod_lt _ (by decide)⟩)

/-- Lowercase hex digit for a value below 16. -/
def hexDigitChar (n : Nat) : Char :=
  if n < 10 then Char.ofNat (48 + n) else Char.ofNat (87 + n)

/-- ethers.hexlify: 0x-prefixed lowercase hex of a byte array. -/
def hexlify (bs : List Byte) : String :=
  "0x" ++ String.mk (bs.foldr
    (fun b acc => hexDigitChar (b.val / 16) :: hexDigitChar (b.val % 16) :: acc) [])

/-- Recase the digits of an address body: uppercase at even positions. -/
def recase : Nat → List Char → List Char
  | _, [] => []
  | i, c :: cs => (if i % 2 = 0 then c.toUpper else c) :: recase (i + 1) cs

/-- Modelled from the spec: EIP-55 checksumming of an address is performed
by the viem getAddress / ethers library call, which the spec treats as a
library contract and whose keccak-based case pattern is not part of this
repository.  It is modelled as a fixed re-casing (uppercase at even
positions) of the lowercased hex digits after the 0x prefix; the
development relies only on it being a function of the lowercased digits
that returns the canonical 0x-prefixed textual form. -/
def checksumAddr (s : String) : String :=
  "0x" ++ String.mk (recase 0 (((s.data.drop 2)).map Char.toLower))

/-- Hex digit in either case. -/
def isHexDigitC (c : Char) : Bool :=
  c.isDigit || ('a' ≤ c && c ≤ 'f') || ('A' ≤ c && c ≤ 'F')

/-- Shape check done by the getAddress library call: 0x followed by
exactly 40 hex digits. -/
def isHexAddress (s : String) : Bool :=
  match s.data with
  | '0' :: 'x' :: rest => rest.length = 40 && rest.all isHexDigitC
  | _ => false

/-- viem getAddress: validates the textual address shape and returns the
canonical checksummed form, otherwise throws InvalidAddressError. -/
def getAddress (s : String) : Except String String :=
  if isHexAddress s then .ok (checksumAddr s) else .error ("Invalid address: " ++ s)

/-- getAddress applied to a raw JSON field value (the JS call
getAddress(parsed.win) throws unless the field is a valid address
string). -/
def getAddressJson : Option Json → Except String String
  | some (.str s) => getAddress s
  | _ => .error "Invalid address: non-string value"

/-- Strict equality test parsed.action === "balance". -/
def isBalanceAction : Option Json → Bool
  | some (.str s) => s = "balance"
  | _ => false

/-- Left brace character (written by code point). -/
def lbrace : Char := Char.ofNat 123

/-- Right brace character (written by code point). -/
def rbrace : Char := Char.ofNat 125

/-- JSON whitespace. -/
def isWsChar (c : Char) : Bool :=
  c = ' ' || c = '\t' || c = '\n' || c = '\r'

/-- Skip leading JSON whitespace. -/
def skipWs : List Char → List Char
  | [] => []
  | c :: cs => if isWsChar c then skipWs cs else c :: cs

/-- Consume a maximal run of decimal digits, accumulating their value. -/
def takeDigits : Nat → List Char → Nat × List Char
  | acc, [] => (acc, [])
  | acc, c :: cs =>
      if c.isDigit then takeDigits (acc * 10 + (c.toNat - 48)) cs else (acc, c :: cs)

/-- Value of four hex digits, if all four characters are hex digits. -/
def hexQuad (a b c d : Char) : Option Nat :=
  if isHexDigitC a && isHexDigitC b && isHexDigitC c && isHexDigitC d then
    some (((hexVal a * 16 + hexVal b) * 16 + hexVal c) * 16 + hexVal d)
  else none
where
  hexVal (c : Char) : Nat :=
    if c.isDigit then c.toNat - 48
    else if 'a' ≤ c then c.toNat - 87 else c.toNat - 55

/-- Single-character JSON string escapes: quote, backslash and slash map
to themselves, the letters n, t, r, b, f to their control characters. -/
def escChar (e : Char) : Option Char :=
  if e = 'n' then some '\n'
  else if e = 't' then some '\t'
  else if e = 'r' then some '\r'
  else if e = 'b' then some (Char.ofNat 8)
  else if e = 'f' then some (Char.ofNat 12)
  else if e = '"' || e = '\\' || e = '/' then some e
  else none

/-- Parse the body of a JSON string literal after the opening quote,
returning the content and the remainder after the closing quote.  The
escapes accepted are exactly the JSON ones. -/
def parseStrChars : List Char → Option (List Char × List Char)
  | [] => none
  | '"' :: cs => some ([], cs)
  | '\\' :: 'u' :: h1 :: h2 :: h3 :: h4 :: cs =>
      match hexQuad h1 h2 h3 h4 with
      | some n => (parseStrChars cs).map (fun p => (Char.ofNat n :: p.1, p.2))
      | none => none
  | '\\' :: e :: cs =>
      match escChar e with
      | some c => (parseStrChars cs).map (fun p => (c :: p.1, p.2))
      | none => none
  | c :: cs => (parseStrChars cs).map (fun p => (c :: p.1, p.2))

mutual

/-- Parse one JSON value (model of the recursive descent inside
JSON.parse).  Fuel decreases on every nested call; parseJson supplies
enough fuel for any input of the given length.  Number literals are
integer-only: fractional or exponent forms make the whole parse fail,
which routes such payloads exactly like scalar JSON for every claim in
this development. -/
def parseVal : Nat → List Char → Option (Json × List Char)
  | 0, _ => none
  | fuel + 1, cs =>
      match skipWs cs with
      | [] => none
      | c :: cs' =>
          if c = lbrace then
            match skipWs cs' with
            | [] => none
            | c2 :: cs'' =>
                if c2 = rbrace then some (Json.obj [], cs'')
                else (parseMembers fuel (c2 :: cs'')).map (fun p => (Json.obj p.1, p.2))
          else if c = '[' then
            match skipWs cs' with
            | [] => none
            | c2 :: cs'' =>
                if c2 = ']' then some (Json.arr [], cs'')
                else (parseElems fuel (c2 :: cs'')).map (fun p => (Json.arr p.1, p.2))
          else if c = '"' then
            (parseStrChars cs').map (fun p => (Json.str (String.mk p.1), p.2))
          else if c = 't' then
            match cs' with
            | 'r' :: 'u' :: 'e' :: rest => some (Json.bool true, rest)
            | _ => none
          else if c = 'f' then
            match cs' with
            | 'a' :: 'l' :: 's' :: 'e' :: rest => some (Json.bool false, rest)
            | _ => none
          else if c = 'n' then
            match cs' with
            | 'u' :: 'l' :: 'l' :: rest => some (Json.null, rest)
            | _ => none
          else if c = '-' then
            match cs' with
            | d :: rest =>
                if d.isDigit then
                  let p := takeDigits (d.toNat - 48) rest
                  some (Json.num (-(p.1 : Int)), p.2)
                else none
            | [] => none
          else if c.isDigit then
            let p := takeDigits (c.toNat - 48) cs'
            some (Json.num (p.1 : Int), p.2)
          else none

/-- Parse one or more key:value members followed by the closing brace. -/
def parseMembers : Nat → List Char → Option (List (String × Json) × List Char)
  | 0, _ => none
  | fuel + 1, cs =>
      match skipWs cs with
      | '"' :: cs' =>
          match parseStrChars cs' with
          | none => none
          | some (key, rest) =>
              match skipWs rest with
              | ':' :: rest2 =>
                  match parseVal fuel rest2 with
                  | none => none
                  | some (v, rest3) =>
                      match skipWs rest3 with
                      | c :: rest4 =>
                          if c = ',' then
                            (parseMembers fuel rest4).map
                              (fun p => ((String.mk key, v) :: p.1, p.2))
                          else if c = rbrace then
                            some ([(String.mk key, v)], rest4)
                          else none
                      | [] => none
              | _ => none
      | _ => none

/-- Parse one or more array elements followed by the closing bracket. -/
def parseElems : Nat → List Char → Option (List Json × List Char)
  | 0, _ => none
  | fuel + 1, cs =>
      match parseVal fuel cs with
      | none => none
      | some (v, rest) =>
          match skipWs rest with
          | ',' :: rest2 => (parseElems fuel rest2).map (fun p => (v :: p.1, p.2))
          | ']' :: rest2 => some ([v], rest2)
          | _ => none

end

/-- Model of the JSON.parse library call: parse one value and require
only whitespace to remain.  Returns none where JS throws SyntaxError. -/
def parseJson (s : String) : Option Json :=
  match parseVal (4 * s.length + 8) s.data with
  | some (j, rest) => if skipWs rest = [] then some j else none
  | none => none

/-- Result of one handler invocation: the ledger afterwards, the status
string returned to the main loop, and the outbound events in order. -/
structure HOut where
  ledger : Ledger
  status : String
  events : List Ev

/-- Errors of the binary deposit decoders. -/
inductive DepErr where
  | payloadTooShort
  | addressExtraction
  | emptyAmountHex
deriving DecidableEq

/-- Messages of the binary deposit decoder errors as rethrown by the JS
catch blocks. -/
def depErrMsg : DepErr → String
  | .payloadTooShort => "Error parsing deposit payload: Payload too short for a deposit."
  | .addressExtraction => "Error parsing deposit payload: Invalid deposit payload: Address extraction failed."
  | .emptyAmountHex => "Error parsing deposit payload: Cannot convert 0x to a BigInt"

/-- Big-endian unsigned integer value of a byte list, as computed by
BigInt(ethers.hexlify(bytes)). -/
def beNat (bs : List Byte) : Nat :=
  bs.foldl (fun acc b => acc * 256 + b.val) 0

/-- parseDepositPayload of part_000: requires at least 52 bytes, takes
bytes 0..19 as the recipient (canonicalized by getAddress) and bytes
20..51 as the big-endian amount. -/
def part000ParseDepositPayload (p : List Byte) : Except DepErr (String × Nat) :=
  if p.length < 52 then .error .payloadTooShort
  else
    let addressData := p.take 20
    let amountData := (p.drop 20).take 32
    match getAddress (hexlify addressData) with
    | .ok recipient => .ok (recipient, beNat amountData)
    | .error _ => .error .addressExtraction

/-- parseDepositPayload of src/index.js: no 52-byte minimum; it only
checks that the address slice has 20 bytes, and BigInt("0x") (empty
amount slice, exactly 20 bytes of payload) throws. -/
def srcParseDepositPayload (p : List Byte) : Except DepErr (String × Nat) :=
  let addressData := p.take 20
  let amountData := (p.drop 20).take 32
  if addressData.length ≠ 20 then .error .addressExtraction
  else if amountData.length = 0 then .error .emptyAmountHex
  else
    match getAddress (hexlify addressData) with
    | .ok recipient => .ok (recipient, beNat amountData)
    | .error _ => .error .addressExtraction

/-- processDeposit of part_000 / src/index.js: the missing-field guard
(falsy recipient or null amount) cannot fire for decoder output but is
kept; an absent balance is initialised to 0 and then incremented. -/
def part000ProcessDeposit (st : Ledger) (recipient : String) (amount : Nat) :
    Except String Ledger :=
  if recipient = "" then .error "Missing recipient or amount in deposit request."
  else .ok (updBal st recipient (st recipient + amount))

/-- The binary deposit branch shared by part_000 (non-JSON payloads) and
src/index.js (all payloads): decode, update the balance, send the
Deposit OK notice; any thrown error is caught and reported with status
reject. -/
def depositPath (decode : List Byte → Except DepErr (String × Nat))
    (st : Ledger) (p : List Byte) : HOut :=
  match decode p with
  | .error e => ⟨st, "reject", [.report ("Error: " ++ depErrMsg e)]⟩
  | .ok (recipient, amount) =>
      match part000ProcessDeposit st recipient amount with
      | .error e => ⟨st, "reject", [.report ("Error: " ++ e)]⟩
      | .ok st' =>
          ⟨st', "accept",
            [.notice ("Deposit OK: recipient=" ++ recipient ++ ", newBalance="
              ++ toString (st' recipient))]⟩

/-- The JSON-object branch of part_000 handleAdvance: win/loss means a
settle (voucher to the winner for the loser's whole balance, then the
loser is zeroed; the winner's ledger entry is not touched); any other
object shape is reported as unrecognized. -/
def part000HandleParsed (st : Ledger) (decoded : String) (parsed : Json) : HOut :=
  if jsTruthy (jsGet parsed "win") && jsTruthy (jsGet parsed "loss") then
    match getAddressJson (jsGet parsed "win") with
    | .error e => ⟨st, "reject", [.report ("Error: " ++ e)]⟩
    | .ok winner =>
        match getAddressJson (jsGet parsed "loss") with
        | .error e => ⟨st, "reject", [.report ("Error: " ++ e)]⟩
        | .ok loser =>
            let loserBalance := st loser
            if 0 < loserBalance then
              ⟨updBal st loser 0, "accept",
                [.voucher winner loserBalance,
                 .notice ("Voucher issued: " ++ winner ++ " gets "
                   ++ toString loserBalance ++ " wei")]⟩
            else
              ⟨st, "accept", [.report ("Loser " ++ loser ++ " has no balance to transfer.")]⟩
  else
    ⟨st, "accept", [.report ("Unrecognized JSON structure: " ++ decoded)]⟩

/-- handleAdvance of part_000: decode the payload to text; payloads that
parse as JSON and are truthy objects go to the JSON branch, everything
else (non-JSON and JSON scalars or null) is treated as a binary
deposit. -/
def part000HandleAdvance (st : Ledger) (p : List Byte) : HOut :=
  let decoded := bytesToString p
  match parseJson decoded with
  | some parsed =>
      if jsTruthyV parsed && isObjLike parsed then
        part000HandleParsed st decoded parsed
      else
        depositPath part000ParseDepositPayload st p
  | none => depositPath part000ParseDepositPayload st p

/-- The balance-query dispatch of part_000 handleInspect (shared verbatim
by src/index.js): the user field is used as the map key exactly as sent,
with no canonicalization. -/
def part000InspectParsed (st : Ledger) (parsed : Json) : HOut :=
  if isBalanceAction (jsGet parsed "action") && jsTruthy (jsGet parsed "user") then
    let userKey := match jsGet parsed "user" with
      | some u => jsToStr u
      | none => "undefined"
    ⟨st, "accept",
      [.report ("Balance of " ++ userKey ++ " = " ++ toString (st userKey) ++ " wei")]⟩
  else
    ⟨st, "accept", []⟩

/-- handleInspect of part_000 and of src/index.js (the two files contain
the same handler text): a payload that fails to parse is caught, reported
and rejected. -/
def part000HandleInspect (st : Ledger) (p : List Byte) : HOut :=
  match parseJson (bytesToString p) with
  | none => ⟨st, "reject", [.report "Error: Unexpected token in JSON"]⟩
  | some parsed => part000InspectParsed st parsed

/-- handleAdvance of src/index.js: every payload is treated as a binary
deposit; there is no JSON branch at all. -/
def srcHandleAdvance (st : Ledger) (p : List Byte) : HOut :=
  depositPath srcParseDepositPayload st p

/-- processDeposit of part_001: JSON action deposit.  Amounts whose JS
Number() coercion is not an integer of the model are flagged instead of
storing NaN (documented model boundary). -/
def part001ProcessDeposit (st : Ledger) (parsed : Json) : Except String Ledger :=
  match jsGet parsed "sender", jsGet parsed "amount" with
  | some sv, some av =>
      if !(jsTruthyV sv) || jsNullish (some av) then
        .error "Missing 'sender' or 'amount' in deposit input"
      else
        match jsNumber av with
        | none => .error "amount is not an integer of the model (JS would store NaN)"
        | some k =>
            let key := jsToStr sv
            .ok (updBal st key (st key + k))
  | _, _ => .error "Missing 'sender' or 'amount' in deposit input"

/-- processTransfer of part_001: the insufficiency guard is the JS test
(!balances[from] || balances[from] < amount), so a zero or absent source
balance always fails, even when the amount is 0; on success the source is
debited and the destination credited in sequence. -/
def part001ProcessTransfer (st : Ledger) (parsed : Json) : Except String Ledger :=
  match jsGet parsed "from", jsGet parsed "to", jsGet parsed "amount" with
  | some fv, some tv, some av =>
      if !(jsTruthyV fv) || !(jsTruthyV tv) || jsNullish (some av) then
        .error "Missing 'from', 'to' or 'amount' in transfer input"
      else
        let fromKey := jsToStr fv
        let toKey := jsToStr tv
        match jsNumber av with
        | none => .error "amount is not an integer of the model (JS would store NaN)"
        | some k =>
            if st fromKey = 0 || st fromKey < k then
              .error ("Insufficient balance in " ++ fromKey ++ ". Current: "
                ++ toString (st fromKey) ++ ", needed: " ++ toString k)
            else
              let st1 := updBal st fromKey (st fromKey - k)
              let st2 := if st1 toKey = 0 then updBal st1 toKey 0 else st1
              .ok (updBal st2 toKey (st2 toKey + k))
  | _, _, _ => .error "Missing 'from', 'to' or 'amount' in transfer input"

/-- The switch on parsed.action of part_001 handleAdvance. -/
def part001Dispatch (st : Ledger) (parsed : Json) : HOut :=
  match jsGet parsed "action" with
  | some (.str "deposit") =>
      (match part001ProcessDeposit st parsed with
       | .error e => ⟨st, "reject", [.report ("Error: " ++ e)]⟩
       | .ok st' =>
           let senderStr := match jsGet parsed "sender" with
             | some sv => jsToStr sv
             | none => "undefined"
           ⟨st', "accept",
             [.notice ("Deposit OK: sender=" ++ senderStr ++ ", newBalance="
               ++ toString (st' senderStr))]⟩)
  | some (.str "transfer") =>
      (match part001ProcessTransfer st parsed with
       | .error e => ⟨st, "reject", [.report ("Error: " ++ e)]⟩
       | .ok st' =>
           let fromStr := match jsGet parsed "from" with
             | some v => jsToStr v
             | none => "undefined"
           let toStr := match jsGet parsed "to" with
             | some v => jsToStr v
             | none => "undefined"
           let amountStr := match jsGet parsed "amount" with
             | some v => jsToStr v
             | none => "undefined"
           ⟨st', "accept",
             [.notice ("Transfer OK: from=" ++ fromStr ++ ", to=" ++ toStr
               ++ ", amount=" ++ amountStr)]⟩)
  | _ => ⟨st, "accept", []⟩

/-- handleAdvance of part_001: JSON only; a payload that does not parse is
caught, reported and rejected. -/
def part001HandleAdvance (st : Ledger) (p : List Byte) : HOut :=
  match parseJson (bytesToString p) with
  | none => ⟨st, "reject", [.report "Error: Unexpected token in JSON"]⟩
  | some parsed => part001Dispatch st parsed

/-- The balance-query dispatch of part_001 handleInspect (no wei suffix
in the message). -/
def part001InspectParsed (st : Ledger) (parsed : Json) : HOut :=
  if isBalanceAction (jsGet parsed "action") && jsTruthy (jsGet parsed "user") then
    let userKey := match jsGet parsed "user" with
      | some u => jsToStr u
      | none => "undefined"
    ⟨st, "accept", [.report ("Balance of " ++ userKey ++ " = " ++ toString (st userKey))]⟩
  else
    ⟨st, "accept", []⟩

/-- handleInspect of part_001: the catch block only logs to the console
and returns reject; no report event is sent. -/
def part001HandleInspect (st : Ledger) (p : List Byte) : HOut :=
  match parseJson (bytesToString p) with
  | none => ⟨st, "reject", []⟩
  | some parsed => part001InspectParsed st parsed

/-- One response of the rollup host to a finish call. -/
inductive HostResp where
  | noInput
  | advance (p : List Byte)
  | inspect (p : List Byte)
  | unknown

/-- Main loop of part_000 and src/index.js, driven by a finite list of
host responses: each iteration posts finish with the current result
status; 202 (noInput) and unknown request types leave the status
unchanged, handled requests replace it with the handler's status.  The
returned list is, in order, the status carried by each finish call. -/
def part000Loop : Ledger → String → List HostResp → List String
  | _, _, [] => []
  | st, status, .noInput :: rs => status :: part000Loop st status rs
  | st, status, .advance p :: rs =>
      status ::
        part000Loop (part000HandleAdvance st p).ledger (part000HandleAdvance st p).status rs
  | st, status, .inspect p :: rs =>
      status ::
        part000Loop (part000HandleInspect st p).ledger (part000HandleInspect st p).status rs
  | st, status, .unknown :: rs => status :: part000Loop st status rs

/-- One loop iteration of part_000 as a state transformer on the pair of
ledger and result status (the specification-side fold). -/
def part000Step (a : Ledger × String) (r : HostResp) : Ledger × String :=
  match r with
  | .noInput => a
  | .unknown => a
  | .advance p => ((part000HandleAdvance a.1 p).ledger, (part000HandleAdvance a.1 p).status)
  | .inspect p => ((part000HandleInspect a.1 p).ledger, (part000HandleInspect a.1 p).status)

/-- Main loop of part_001: the finish call that fetches the next request
always carries status accept; after handling a request a second finish
call carries the handler status (and its response is discarded).  The
returned list is, in order, the status carried by each finish call. -/
def part001Loop : Ledger → List HostResp → List String
  | _, [] => []
  | st, .noInput :: rs => "accept" :: part001Loop st rs
  | st, .advance p :: rs =>
      "accept" :: (part001HandleAdvance st p).status ::
        part001Loop (part001HandleAdvance st p).ledger rs
  | st, .inspect p :: rs =>
      "accept" :: (part001HandleInspect st p).status :: part001Loop st rs
  | st, .unknown :: rs => "accept" :: "accept" :: part001Loop st rs

/-- Specification-side reading of a big-endian unsigned integer, written
as the positional sum of the spec (most significant byte first); compared
against the decoder's beNat fold. -/
def beSpec (bs : List Byte) : Nat :=
  Finset.sum (Finset.range bs.length) (fun i => (bs.getD i 0).val * 256 ^ (bs.length - 1 - i))

/-- JSON object for the part_001 deposit action. -/
def depositObj (a : String) (n : Int) : Json :=
  Json.obj [("action", Json.str "deposit"), ("sender", Json.str a), ("amount", Json.num n)]

/-- JSON object for the part_001 transfer action. -/
def transferObj (fromA toA : String) (n : Int) : Json :=
  Json.obj [("action", Json.str "transfer"), ("from", Json.str fromA),
    ("to", Json.str toA), ("amount", Json.num n)]

/-- JSON object for the balance query. -/
def balanceQueryObj (a : String) : Json :=
  Json.obj [("action", Json.str "balance"), ("user", Json.str a)]

/-- Concrete valid address made of digits (its checksummed form is
itself). -/
def addrOnes : String := "0x1111111111111111111111111111111111111111"

/-- Second concrete digits-only address. -/
def addrTwos : String := "0x2222222222222222222222222222222222222222"

/-- Third concrete digits-only address. -/
def addrThrees : String := "0x3333333333333333333333333333333333333333"

/-- Concrete settle payload: win addrOnes, loss addrTwos. -/
def settlePayloadOnesTwos : List Byte :=
  strToBytes ("\x7b\"win\":\"" ++ addrOnes ++ "\",\"loss\":\"" ++ addrTwos ++ "\"\x7d")

/-- Concrete self-settle payload: win and loss both addrThrees. -/
def selfSettlePayload : List Byte :=
  strToBytes ("\x7b\"win\":\"" ++ addrThrees ++ "\",\"loss\":\"" ++ addrThrees ++ "\"\x7d")

/-- Ledger holding 5 wei for addrTwos. -/
def c1State : Ledger := updBal emptyLedger addrTwos 5

/-- Ledger holding 7 wei for addrThrees. -/
def c10State : Ledger := updBal emptyLedger addrThrees 7

/-- Payload whose text is the JSON scalar 7. -/
def pScalar : List Byte := strToBytes "7"

/-- Payload whose text is the empty JSON object. -/
def pEmptyObj : List Byte := strToBytes "\x7b\x7d"

/-- Payload that is not JSON at all. -/
def pNotJson : List Byte := strToBytes "notjson"

/-- One-character payload that is not JSON. -/
def pOneChar : List Byte := strToBytes "x"

/-- Concrete 52-byte binary deposit payload: 20 bytes of 0xab, a 31-byte
zero prefix and a final amount byte 5. -/
def dep52 : List Byte :=
  List.replicate 20 (171 : Byte) ++ List.replicate 31 (0 : Byte) ++ [(5 : Byte)]

/-- Concrete 21-byte payload: 20 bytes of 0xab and one amount byte 7. -/
def p21 : List Byte := List.replicate 20 (171 : Byte) ++ [(7 : Byte)]

/-- Canonical (checksummed) key under which dep52 credits the ledger. -/
def canonicalAbKey : String := checksumAddr (hexlify (dep52.take 20))

/-- The all-uppercase casing variant of the same address. -/
def upperVariantAb : String := "0XABABABABABABABABABABABABABABABABABABABAB"

/-- Inspect payload querying the balance of the uppercase variant. -/
def qVariantPayload : List Byte :=
  strToBytes ("\x7b\"action\":\"balance\",\"user\":\"" ++ upperVariantAb ++ "\"\x7d")

/-- Inspect payload querying the balance of the canonical key. -/
def qCanonicalPayload : List Byte :=
  strToBytes ("\x7b\"action\":\"balance\",\"user\":\"" ++ canonicalAbKey ++ "\"\x7d")

/-- Ledger holding 5 wei for the key 0xA (part_001 string keys). -/
def c4wState : Ledger := updBal emptyLedger "0xA" 5

/-- JSON deposit action with a negative amount. -/
def depositObjNeg : Json := depositObj "0xAAA" (-5)

/-- Character-wise lowercase of a string (byte-level case folding used to
express case-insensitive address equality). -/
def lowerStr (s : String) : String := String.mk (s.data.map Char.toLower)

/-! Helper lemmas shared by the claim theorems. -/

theorem updBal_self (st : Ledger) (k : String) (v : Int) : updBal st k v k = v := by
  simp [updBal]

theorem updBal_other (st : Ledger) (k : String) (v : Int) {x : String} (h : x ≠ k) :
    updBal st k v x = st x := by
  simp [updBal, h]

theorem ne_empty_of_isHexAddress {s : String} (h : isHexAddress s = true) : s ≠ "" := by
  intro he
  subst he
  simp [isHexAddress] at h

/-- The claim as written fails on the code of part_000: with loser balance
5, the settle input zeroes the loser and emits the voucher, but the
winner's ledger balance stays 0 instead of rising by 5 (claim C1). -/
theorem c1_counterexample :
    c1State addrTwos = 5 ∧
    (part000HandleAdvance c1State settlePayloadOnesTwos).ledger addrOnes
      ≠ c1State addrOnes + 5 := by
  constructor
  · decide
  · decide

/-- A payload whose text is the JSON scalar 7 parses as JSON yet is
handled by the binary-deposit branch of part_000, which rejects it as a
too-short deposit (claim C2). -/
theorem c2_counterexample :
    parseJson (bytesToString pScalar) = some (Json.num 7) ∧
    (part000HandleAdvance emptyLedger pScalar).events
      = [Ev.report ("Error: " ++ depErrMsg DepErr.payloadTooShort)] ∧
    (part000HandleAdvance emptyLedger pScalar).status = "reject" := by
  refine ⟨rfl, by decide, by decide⟩

/-- A 21-byte payload is shorter than 52 bytes yet decodes successfully
in the src/index.js variant of parseDepositPayload (claim C3). -/
theorem c3_counterexample :
    p21.length < 52 ∧
    srcParseDepositPayload p21 = .ok (checksumAddr (hexlify (p21.take 20)), 7) := by
  refine ⟨by decide, rfl⟩

/-- A transfer of amount 0 from an account with balance 0 does not
satisfy balance < amount, yet part_001 processTransfer signals
insufficient balance instead of performing the transfer (claim C4). -/
theorem c4_counterexample :
    ¬(emptyLedger "0xAAA" < (0 : Int)) ∧
    part001ProcessTransfer emptyLedger (transferObj "0xAAA" "0xBBB" 0)
      = .error "Insufficient balance in 0xAAA. Current: 0, needed: 0" := by
  refine ⟨by decide, rfl⟩

/-- A JSON deposit with amount -5 is accepted by part_001 and drives the
sender's balance negative, violating the nonnegativity invariant as
stated (claim C5). -/
theorem c5_counterexample :
    (part001Dispatch emptyLedger depositObjNeg).ledger "0xAAA" = -5 ∧
    (part001Dispatch emptyLedger depositObjNeg).status = "accept" ∧
    ((-5 : Int) < 0) := by
  refine ⟨rfl, rfl, by decide⟩

/-- A malformed inspect payload makes part_001 handleInspect return
reject with no report event at all, contradicting the claim that every
handler error is converted into an emitted report (claim C8). -/
theorem c8_counterexample :
    (part001HandleInspect emptyLedger pNotJson).status = "reject" ∧
    (part001HandleInspect emptyLedger pNotJson).events = [] := by
  refine ⟨rfl, rfl⟩

/-- After part_001 handles an input with status reject, the finish call
that fetches the next input still carries accept: the loop posts
["accept", "reject", "accept"], so the fetching call does not carry the
previous result (claim C9). -/
theorem c9_counterexample :
    (part001HandleAdvance emptyLedger pOneChar).status = "reject" ∧
    part001Loop emptyLedger [HostResp.advance pOneChar, HostResp.noInput]
      = ["accept", "reject", "accept"] ∧
    ("accept" : String) ≠ "reject" := by
  refine ⟨rfl, by decide, by decide⟩

/-- The ledger credited by a binary deposit is keyed by the checksummed
canonical string only: querying the all-uppercase casing variant of the
same address (equal up to case) reports balance 0 while the canonical
form reports 5 (claim C7). -/
theorem c7_counterexample :
    (part000HandleAdvance emptyLedger dep52).ledger canonicalAbKey = 5 ∧
    lowerStr upperVariantAb = lowerStr canonicalAbKey ∧
    upperVariantAb ≠ canonicalAbKey ∧
    (part000HandleInspect (part000HandleAdvance emptyLedger dep52).ledger
        qVariantPayload).events
      = [Ev.report ("Balance of " ++ upperVariantAb ++ " = 0 wei")] ∧
    (part000HandleInspect (part000HandleAdvance emptyLedger dep52).ledger
        qCanonicalPayload).events
      = [Ev.report ("Balance of " ++ canonicalAbKey ++ " = 5 wei")] := by
  refine ⟨by decide, by decide, by decide, by decide, by decide⟩

/-- Claim C2 (amended): in the part_000 classifier, a payload whose text
parses as a truthy JSON object value is dispatched to the JSON branch and
never to the binary-deposit branch; a payload parsing to a scalar or null
JSON value is dispatched to the binary-deposit branch (this is where the
claim as stated fails); and a payload that does not parse as JSON is
dispatched to the binary-deposit branch and never to the JSON branch. -/
theorem c2_routing_amended (st : Ledger) (p : List Byte) :
    (parseJson (bytesToString p) = none →
      part000HandleAdvance st p = depositPath part000ParseDepositPayload st p) ∧
    (∀ j, parseJson (bytesToString p) = some j → (jsTruthyV j && isObjLike j) = true →
      part000HandleAdvance st p = part000HandleParsed st (bytesToString p) j) ∧
    (∀ j, parseJson (bytesToString p) = some j → (jsTruthyV j && isObjLike j) = false →
      part000HandleAdvance st p = depositPath part000ParseDepositPayload st p) := by
  refine ⟨?_, ?_, ?_⟩
  · intro h
    simp only [part000HandleAdvance]
    rw [h]
  · intro j hj hb
    simp only [part000HandleAdvance]
    rw [hj]
    simp [hb]
  · intro j hj hb
    simp only [part000HandleAdvance]
    rw [hj]
    simp [hb]

/-- Witness for c2_routing_amended: the empty-object payload goes to the
JSON branch. -/
theorem c2_routing_witness :
    part000HandleAdvance emptyLedger pEmptyObj
      = part000HandleParsed emptyLedger (bytesToString pEmptyObj) (Json.obj []) :=
  (c2_routing_amended emptyLedger pEmptyObj).2.1 (Json.obj []) rfl (by decide)

theorem updBal_updBal_self (st : Ledger) (k : String) (v w : Int) :
    updBal (updBal st k v) k w = updBal st k w := by
  funext x
  simp only [updBal]
  split <;> rfl

/-- Normal form of part_001 processTransfer on a transfer action with
string endpoints and an integer amount. -/
theorem part001ProcessTransfer_normal (st : Ledger) (fromA toA : String) (n : Int)
    (hf : fromA ≠ "") (ht : toA ≠ "") :
    part001ProcessTransfer st (transferObj fromA toA n)
      = if st fromA = 0 ∨ st fromA < n then
          .error ("Insufficient balance in " ++ fromA ++ ". Current: "
            ++ toString (st fromA) ++ ", needed: " ++ toString n)
        else
          .ok (updBal (updBal st fromA (st fromA - n)) toA
                ((updBal st fromA (st fromA - n)) toA + n)) := by
  simp [part001ProcessTransfer, transferObj, jsGet, jsTruthyV, jsNullish, jsNumber,
    jsToStr, hf, ht]
  split
  · rfl
  · congr 1
    split
    · rename_i h0
      rw [updBal_updBal_self, updBal_self, h0]
    · rfl

/-- Claim C4 (amended): part_001 processTransfer signals insufficient
balance not only when balance[from] < amount but also whenever
balance[from] is zero or absent (the JS falsy test), so a transfer of
amount 0 from an empty account fails; in every failure no balance
changes, and otherwise the debit and credit happen atomically, leaving
all other balances unchanged. -/
theorem c4_transfer_amended (st : Ledger) (fromA toA : String) (n : Int)
    (hf : fromA ≠ "") (ht : toA ≠ "") :
    (st fromA = 0 ∨ st fromA < n →
      part001ProcessTransfer st (transferObj fromA toA n)
        = .error ("Insufficient balance in " ++ fromA ++ ". Current: "
            ++ toString (st fromA) ++ ", needed: " ++ toString n)) ∧
    (st fromA ≠ 0 → n ≤ st fromA →
      ∃ st', part001ProcessTransfer st (transferObj fromA toA n) = .ok st' ∧
        (fromA ≠ toA → st' fromA = st fromA - n ∧ st' toA = st toA + n) ∧
        (fromA = toA → st' toA = st toA) ∧
        (∀ k, k ≠ fromA → k ≠ toA → st' k = st k)) := by
  constructor
  · intro h
    rw [part001ProcessTransfer_normal st fromA toA n hf ht, if_pos h]
  · intro h0 hle
    have hcond : ¬(st fromA = 0 ∨ st fromA < n) := not_or.mpr ⟨h0, not_lt.mpr hle⟩
    rw [part001ProcessTransfer_normal st fromA toA n hf ht, if_neg hcond]
    refine ⟨_, rfl, ?_, ?_, ?_⟩
    · intro hne
      constructor
      · simp [updBal, hne]
      · simp [updBal, Ne.symm hne]
    · intro heq
      subst heq
      simp [updBal]
    · intro k hkf hkt
      simp [updBal, hkf, hkt]

/-- Witness for c4_transfer_amended: transferring 3 from an account with
balance 5 debits and credits as expected. -/
theorem c4_transfer_witness :
    ∃ st', part001ProcessTransfer c4wState (transferObj "0xA" "0xB" 3) = .ok st' ∧
      st' "0xA" = 2 ∧ st' "0xB" = 3 := by
  obtain ⟨st', heq, hsplit, _, _⟩ :=
    (c4_transfer_amended c4wState "0xA" "0xB" 3 (by decide) (by decide)).2
      (by decide) (by decide)
  obtain ⟨hfA, hB⟩ := hsplit (by decide)
  exact ⟨st', heq, by rw [hfA]; decide, by rw [hB]; decide⟩

/-- Claim C6 (confirmed): crediting a previously-unseen address a with a
JSON deposit of n at part_001 and then querying a through the inspect
dispatch reports exactly n and accepts both requests. -/
theorem c6_credit_query_roundtrip (st : Ledger) (a : String) (n : Int)
    (ha : a ≠ "") (hfresh : st a = 0) (_hn : 0 ≤ n) :
    (part001Dispatch st (depositObj a n)).status = "accept" ∧
    (part001Dispatch st (depositObj a n)).ledger a = n ∧
    (part001InspectParsed (part001Dispatch st (depositObj a n)).ledger
        (balanceQueryObj a)).status = "accept" ∧
    (part001InspectParsed (part001Dispatch st (depositObj a n)).ledger
        (balanceQueryObj a)).events
      = [Ev.report ("Balance of " ++ a ++ " = " ++ toString n)] := by
  have hdisp : part001Dispatch st (depositObj a n)
      = ⟨updBal st a (st a + n), "accept",
          [Ev.notice ("Deposit OK: sender=" ++ a ++ ", newBalance="
            ++ toString (updBal st a (st a + n) a))]⟩ := by
    simp [part001Dispatch, depositObj, part001ProcessDeposit, jsGet, jsTruthyV,
      jsNullish, jsNumber, jsToStr, ha]
  rw [hdisp]
  refine ⟨rfl, ?_, ?_, ?_⟩
  · show updBal st a (st a + n) a = n
    rw [updBal_self, hfresh, zero_add]
  · simp [part001InspectParsed, balanceQueryObj, jsGet, isBalanceAction, jsTruthy,
      jsTruthyV, ha]
  · simp [part001InspectParsed, balanceQueryObj, jsGet, isBalanceAction, jsTruthy,
      jsTruthyV, jsToStr, ha, updBal_self, hfresh]

/-- Witness for c6_credit_query_roundtrip at the fresh address 0xAbCd and
amount 7. -/
theorem c6_credit_query_witness :
    (part001Dispatch emptyLedger (depositObj "0xAbCd" 7)).ledger "0xAbCd" = 7 ∧
    (part001InspectParsed (part001Dispatch emptyLedger (depositObj "0xAbCd" 7)).ledger
        (balanceQueryObj "0xAbCd")).events
      = [Ev.report "Balance of 0xAbCd = 7"] := by
  obtain ⟨_, h2, _, h4⟩ :=
    c6_credit_query_roundtrip emptyLedger "0xAbCd" 7 (by decide) rfl (by decide)
  exact ⟨h2, h4⟩

/-- Normal form of part_000 handleAdvance on a payload parsing to a
win/loss object with valid address strings. -/
theorem part000_settle_normal (st : Ledger) (p : List Byte) (W L : String)
    (hparse : parseJson (bytesToString p)
      = some (Json.obj [("win", Json.str W), ("loss", Json.str L)]))
    (hW : isHexAddress W = true) (hL : isHexAddress L = true) :
    part000HandleAdvance st p =
      if 0 < st (checksumAddr L) then
        ⟨updBal st (checksumAddr L) 0, "accept",
          [Ev.voucher (checksumAddr W) (st (checksumAddr L)),
           Ev.notice ("Voucher issued: " ++ checksumAddr W ++ " gets "
             ++ toString (st (checksumAddr L)) ++ " wei")]⟩
      else
        ⟨st, "accept",
          [Ev.report ("Loser " ++ checksumAddr L ++ " has no balance to transfer.")]⟩ := by
  have hW' := ne_empty_of_isHexAddress hW
  have hL' := ne_empty_of_isHexAddress hL
  simp only [part000HandleAdvance]
  rw [hparse]
  simp [part000HandleParsed, jsGet, jsTruthy, jsTruthyV, isObjLike, getAddressJson,
    getAddress, hW, hL, hW', hL']

/-- Claim C1 (amended): on a settle input with loser balance N greater
than 0, part_000 zeroes the loser, leaves every other balance including
the winner's unchanged, emits exactly one voucher for the winner with
amount N followed by the notice, and accepts; the winner's ledger balance
is not raised (the payout exists only as the voucher). -/
theorem c1_settle_amended (st : Ledger) (p : List Byte) (W L : String) (N : Int)
    (hparse : parseJson (bytesToString p)
      = some (Json.obj [("win", Json.str W), ("loss", Json.str L)]))
    (hW : isHexAddress W = true) (hL : isHexAddress L = true)
    (hN : st (checksumAddr L) = N) (hpos : 0 < N)
    (hne : checksumAddr W ≠ checksumAddr L) :
    (part000HandleAdvance st p).ledger (checksumAddr L) = 0 ∧
    (part000HandleAdvance st p).ledger (checksumAddr W) = st (checksumAddr W) ∧
    (∀ k, k ≠ checksumAddr L → (part000HandleAdvance st p).ledger k = st k) ∧
    (part000HandleAdvance st p).status = "accept" ∧
    (part000HandleAdvance st p).events
      = [Ev.voucher (checksumAddr W) N,
         Ev.notice ("Voucher issued: " ++ checksumAddr W ++ " gets "
           ++ toString N ++ " wei")] := by
  rw [part000_settle_normal st p W L hparse hW hL, hN, if_pos hpos]
  refine ⟨updBal_self _ _ _, ?_, ?_, rfl, rfl⟩
  · exact updBal_other _ _ _ hne
  · intro k hk
    exact updBal_other _ _ _ hk

/-- Witness for c1_settle_amended on the concrete settle payload with
loser balance 5. -/
theorem c1_settle_witness :
    (part000HandleAdvance c1State settlePayloadOnesTwos).ledger (checksumAddr addrTwos) = 0 ∧
    (part000HandleAdvance c1State settlePayloadOnesTwos).ledger (checksumAddr addrOnes)
      = c1State (checksumAddr addrOnes) ∧
    (part000HandleAdvance c1State settlePayloadOnesTwos).status = "accept" := by
  obtain ⟨h1, h2, _, h4, _⟩ :=
    c1_settle_amended c1State settlePayloadOnesTwos addrOnes addrTwos 5 rfl
      (by decide) (by decide) (by decide) (by decide) (by decide)
  exact ⟨h1, h2, h4⟩

/-- Claim C10 (confirmed): a settle whose winner and loser are the same
address A with balance N greater than 0 emits one voucher of amount N
destined to A itself, zeroes A, accepts, and decreases the summed balance
of any finite set of keys containing A by N. -/
theorem c10_self_settle (st : Ledger) (p : List Byte) (A : String) (N : Int)
    (hparse : parseJson (bytesToString p)
      = some (Json.obj [("win", Json.str A), ("loss", Json.str A)]))
    (hA : isHexAddress A = true) (hN : st (checksumAddr A) = N) (hpos : 0 < N) :
    (part000HandleAdvance st p).ledger (checksumAddr A) = 0 ∧
    (part000HandleAdvance st p).status = "accept" ∧
    (part000HandleAdvance st p).events
      = [Ev.voucher (checksumAddr A) N,
         Ev.notice ("Voucher issued: " ++ checksumAddr A ++ " gets "
           ++ toString N ++ " wei")] ∧
    ∀ S : Finset String, checksumAddr A ∈ S →
      Finset.sum S (part000HandleAdvance st p).ledger = Finset.sum S st - N := by
  rw [part000_settle_normal st p A A hparse hA hA, hN, if_pos hpos]
  refine ⟨updBal_self _ _ _, rfl, rfl, ?_⟩
  intro S hS
  show Finset.sum S (updBal st (checksumAddr A) 0) = Finset.sum S st - N
  have hupd : updBal st (checksumAddr A) 0 = Function.update st (checksumAddr A) 0 := by
    funext x
    simp [updBal, Function.update_apply]
  rw [hupd, Finset.sum_update_of_mem hS, Finset.sum_eq_sum_diff_singleton_add hS st, hN]
  omega

/-- Witness for c10_self_settle on the concrete self-settle payload with
balance 7. -/
theorem c10_self_settle_witness :
    (part000HandleAdvance c10State selfSettlePayload).ledger (checksumAddr addrThrees) = 0 ∧
    Finset.sum {checksumAddr addrThrees}
        (part000HandleAdvance c10State selfSettlePayload).ledger
      = Finset.sum {checksumAddr addrThrees} c10State - 7 := by
  obtain ⟨h1, _, _, h4⟩ :=
    c10_self_settle c10State selfSettlePayload addrThrees 7 rfl
      (by decide) (by decide) (by decide)
  exact ⟨h1, h4 {checksumAddr addrThrees} (Finset.mem_singleton_self _)⟩

theorem depositPath_nonneg (d : List Byte → Except DepErr (String × Nat)) (st : Ledger)
    (p : List Byte) (h : ∀ k, 0 ≤ st k) : ∀ k, 0 ≤ (depositPath d st p).ledger k := by
  intro k
  unfold depositPath
  cases hd : d p with
  | error e => exact h k
  | ok rp =>
      obtain ⟨r, a⟩ := rp
      simp only [part000ProcessDeposit]
      by_cases hr : r = ""
      · rw [if_pos hr]
        exact h k
      · rw [if_neg hr]
        show 0 ≤ updBal st r (st r + (a : Int)) k
        simp only [updBal]
        split
        · exact add_nonneg (h r) (Int.natCast_nonneg a)
        · exact h k

theorem part000HandleParsed_nonneg (st : Ledger) (decoded : String) (parsed : Json)
    (h : ∀ k, 0 ≤ st k) : ∀ k, 0 ≤ (part000HandleParsed st decoded parsed).ledger k := by
  intro k
  unfold part000HandleParsed
  split
  · cases hW : getAddressJson (jsGet parsed "win") with
    | error e => exact h k
    | ok winner =>
        cases hL : getAddressJson (jsGet parsed "loss") with
        | error e => exact h k
        | ok loser =>
            show 0 ≤ (if 0 < st loser then
                (⟨updBal st loser 0, "accept",
                  [Ev.voucher winner (st loser),
                   Ev.notice ("Voucher issued: " ++ winner ++ " gets "
                     ++ toString (st loser) ++ " wei")]⟩ : HOut)
              else
                ⟨st, "accept",
                  [Ev.report ("Loser " ++ loser ++ " has no balance to transfer.")]⟩).ledger k
            by_cases hpos : 0 < st loser
            · rw [if_pos hpos]
              show 0 ≤ updBal st loser 0 k
              simp only [updBal]
              split
              · exact le_refl 0
              · exact h k
            · rw [if_neg hpos]
              exact h k
  · exact h k

theorem part000HandleInspect_ledger (st : Ledger) (p : List Byte) :
    (part000HandleInspect st p).ledger = st := by
  unfold part000HandleInspect
  cases parseJson (bytesToString p) with
  | none => rfl
  | some parsed =>
      show (part000InspectParsed st parsed).ledger = st
      unfold part000InspectParsed
      by_cases hb : (isBalanceAction (jsGet parsed "action")
          && jsTruthy (jsGet parsed "user")) = true
      · rw [if_pos hb]
      · rw [if_neg hb]

theorem part001HandleInspect_ledger (st : Ledger) (p : List Byte) :
    (part001HandleInspect st p).ledger = st := by
  unfold part001HandleInspect
  cases parseJson (bytesToString p) with
  | none => rfl
  | some parsed =>
      show (part001InspectParsed st parsed).ledger = st
      unfold part001InspectParsed
      by_cases hb : (isBalanceAction (jsGet parsed "action")
          && jsTruthy (jsGet parsed "user")) = true
      · rw [if_pos hb]
      · rw [if_neg hb]

theorem part001ProcessDeposit_nonneg (st : Ledger) (parsed : Json) (st' : Ledger)
    (h : ∀ k, 0 ≤ st k)
    (hamt : ∀ av n, jsGet parsed "amount" = some av → jsNumber av = some n → 0 ≤ n)
    (hok : part001ProcessDeposit st parsed = .ok st') : ∀ k, 0 ≤ st' k := by
  unfold part001ProcessDeposit at hok
  split at hok
  · rename_i sv av heq1 heq2
    split at hok
    · exact absurd hok (by simp)
    · split at hok
      · exact absurd hok (by simp)
      · rename_i n hnum
        rw [Except.ok.injEq] at hok
        subst hok
        intro k
        simp only [updBal]
        split
        · exact add_nonneg (h _) (hamt av n heq2 hnum)
        · exact h k
  · exact absurd hok (by simp)

theorem part001ProcessTransfer_nonneg (st : Ledger) (parsed : Json) (st' : Ledger)
    (h : ∀ k, 0 ≤ st k)
    (hamt : ∀ av n, jsGet parsed "amount" = some av → jsNumber av = some n → 0 ≤ n)
    (hok : part001ProcessTransfer st parsed = .ok st') : ∀ k, 0 ≤ st' k := by
  unfold part001ProcessTransfer at hok
  split at hok
  · rename_i fv tv av heq1 heq2 heq3
    split at hok
    · exact absurd hok (by simp)
    · split at hok
      · exact absurd hok (by simp)
      · rename_i n hnum
        simp only [] at hok
        split at hok
        · exact absurd hok (by simp)
        · rename_i hguard
          rw [Except.ok.injEq] at hok
          subst hok
          have hn : 0 ≤ n := hamt av n heq3 hnum
          have hguard' : ¬(st (jsToStr fv) = 0 ∨ st (jsToStr fv) < n) := by
            simpa using hguard
          have hge : n ≤ st (jsToStr fv) :=
            not_lt.mp (fun hlt => hguard' (Or.inr hlt))
          have h1 : ∀ k, 0 ≤ updBal st (jsToStr fv) (st (jsToStr fv) - n) k := by
            intro k
            simp only [updBal]
            split
            · omega
            · exact h k
          have h2 : ∀ k,
              0 ≤ (if updBal st (jsToStr fv) (st (jsToStr fv) - n) (jsToStr tv) = 0 then
                    updBal (updBal st (jsToStr fv) (st (jsToStr fv) - n)) (jsToStr tv) 0
                  else updBal st (jsToStr fv) (st (jsToStr fv) - n)) k := by
            intro k
            split
            · simp only [updBal]
              split
              · exact le_refl 0
              · exact h1 k
            · exact h1 k
          intro k
          simp only [updBal]
          split
          · exact add_nonneg (h2 _) hn
          · exact h2 k
  · exact absurd hok (by simp)

/-- Claim C5 (amended): starting from a ledger with no negative balance,
every part_000 and src/index.js advance or inspect step preserves
nonnegativity unconditionally (binary deposit amounts are unsigned and
settle only zeroes), and a part_001 action step preserves it provided the
amount field of the action is a nonnegative integer; a negative JSON
amount violates the invariant (see the counterexample). -/
theorem c5_nonneg_amended :
    (∀ st p, (∀ k, 0 ≤ st k) → ∀ k, 0 ≤ (part000HandleAdvance st p).ledger k) ∧
    (∀ st p, (∀ k, 0 ≤ st k) → ∀ k, 0 ≤ (part000HandleInspect st p).ledger k) ∧
    (∀ st p, (∀ k, 0 ≤ st k) → ∀ k, 0 ≤ (srcHandleAdvance st p).ledger k) ∧
    (∀ st parsed, (∀ k, 0 ≤ st k) →
      (∀ av n, jsGet parsed "amount" = some av → jsNumber av = some n → 0 ≤ n) →
      ∀ k, 0 ≤ (part001Dispatch st parsed).ledger k) ∧
    (∀ st p, (∀ k, 0 ≤ st k) → ∀ k, 0 ≤ (part001HandleInspect st p).ledger k) := by
  refine ⟨?_, ?_, ?_, ?_, ?_⟩
  · intro st p h k
    simp only [part000HandleAdvance]
    cases hp : parseJson (bytesToString p) with
    | none => exact depositPath_nonneg _ st p h k
    | some parsed =>
        show 0 ≤ (if (jsTruthyV parsed && isObjLike parsed) = true then
            part000HandleParsed st (bytesToString p) parsed
          else depositPath part000ParseDepositPayload st p).ledger k
        by_cases hb : (jsTruthyV parsed && isObjLike parsed) = true
        · rw [if_pos hb]
          exact part000HandleParsed_nonneg st _ parsed h k
        · rw [if_neg hb]
          exact depositPath_nonneg _ st p h k
  · intro st p h k
    rw [part000HandleInspect_ledger]
    exact h k
  · intro st p h k
    unfold srcHandleAdvance
    exact depositPath_nonneg _ st p h k
  · intro st parsed h hamt k
    unfold part001Dispatch
    split
    · cases hd : part001ProcessDeposit st parsed with
      | error e => exact h k
      | ok st' => exact part001ProcessDeposit_nonneg st parsed st' h hamt hd k
    · cases hd : part001ProcessTransfer st parsed with
      | error e => exact h k
      | ok st' => exact part001ProcessTransfer_nonneg st parsed st' h hamt hd k
    · exact h k
  · intro st p h k
    rw [part001HandleInspect_ledger]
    exact h k

/-- Witness for c5_nonneg_amended: after the concrete binary deposit on
the empty ledger the credited balance is nonnegative. -/
theorem c5_nonneg_witness :
    0 ≤ (part000HandleAdvance emptyLedger dep52).ledger canonicalAbKey :=
  c5_nonneg_amended.1 emptyLedger dep52 (fun _ => le_refl 0) canonicalAbKey

theorem beSpec_cons (b : Byte) (t : List Byte) :
    beSpec (b :: t) = b.val * 256 ^ t.length + beSpec t := by
  unfold beSpec
  rw [List.length_cons, Finset.sum_range_succ']
  have h1 : ∀ i, ((b :: t).getD (i + 1) 0).val * 256 ^ (t.length + 1 - 1 - (i + 1))
      = (t.getD i 0).val * 256 ^ (t.length - 1 - i) := by
    intro i
    rw [List.getD_cons_succ]
    congr 1
    congr 1
    omega
  rw [Finset.sum_congr rfl (fun i _ => h1 i)]
  simp [List.getD_cons_zero, add_comm]

theorem beNat_aux (t : List Byte) : ∀ acc : Nat,
    t.foldl (fun a b => a * 256 + b.val) acc = acc * 256 ^ t.length + beSpec t := by
  induction t with
  | nil =>
      intro acc
      simp [beSpec]
  | cons b t ih =>
      intro acc
      rw [List.foldl_cons, ih (acc * 256 + b.val), beSpec_cons, List.length_cons, pow_succ]
      ring

theorem beNat_eq_beSpec (bs : List Byte) : beNat bs = beSpec bs := by
  unfold beNat
  rw [beNat_aux bs 0]
  simp

theorem hexDigitChar_isHex : ∀ n < 16, isHexDigitC (hexDigitChar n) = true := by decide

theorem hexChars_spec (bs : List Byte) :
    (bs.foldr (fun b acc => hexDigitChar (b.val / 16) :: hexDigitChar (b.val % 16) :: acc)
        []).length = 2 * bs.length ∧
    (bs.foldr (fun b acc => hexDigitChar (b.val / 16) :: hexDigitChar (b.val % 16) :: acc)
        []).all isHexDigitC = true := by
  induction bs with
  | nil => exact ⟨rfl, rfl⟩
  | cons b t ih =>
      have hd : b.val / 16 < 16 := (Nat.div_lt_iff_lt_mul (by norm_num)).mpr b.isLt
      have hm : b.val % 16 < 16 := Nat.mod_lt _ (by norm_num)
      constructor
      · simp only [List.foldr_cons, List.length_cons, ih.1]
        omega
      · rw [List.foldr_cons, List.all_cons, List.all_cons, ih.2,
          hexDigitChar_isHex _ hd, hexDigitChar_isHex _ hm]
        rfl

theorem isHexAddress_data (rest : List Char) :
    isHexAddress (String.mk ('0' :: 'x' :: rest))
      = (decide (rest.length = 40) && rest.all isHexDigitC) := rfl

theorem isHexAddress_hexlify (bs : List Byte) (h : bs.length = 20) :
    isHexAddress (hexlify bs) = true := by
  have hfl : hexlify bs
      = String.mk ('0' :: 'x' :: (bs.foldr
          (fun b acc => hexDigitChar (b.val / 16) :: hexDigitChar (b.val % 16) :: acc) [])) := rfl
  rw [hfl, isHexAddress_data, (hexChars_spec bs).1, (hexChars_spec bs).2, h]
  rfl

/-- Claim C3 (amended): the part_000 decoder behaves as the claim states
(exactly 52 bytes succeed with the canonicalized recipient from bytes
0..19 and the big-endian amount from bytes 20..51; anything shorter fails
with the too-short error), but the src/index.js decoder accepts any
payload of at least 21 bytes, failing only below 20 bytes (address
extraction) or at exactly 20 bytes (empty amount hex). -/
theorem c3_deposit_decode_amended (p : List Byte) :
    (p.length = 52 →
      part000ParseDepositPayload p
        = .ok (checksumAddr (hexlify (p.take 20)), beSpec ((p.drop 20).take 32))) ∧
    (p.length < 52 → part000ParseDepositPayload p = .error .payloadTooShort) ∧
    (21 ≤ p.length →
      srcParseDepositPayload p
        = .ok (checksumAddr (hexlify (p.take 20)), beSpec ((p.drop 20).take 32))) ∧
    (p.length < 20 → srcParseDepositPayload p = .error .addressExtraction) ∧
    (p.length = 20 → srcParseDepositPayload p = .error .emptyAmountHex) := by
  have htake : ∀ h20 : 20 ≤ p.length, (p.take 20).length = 20 := by
    intro h20
    rw [List.length_take]
    omega
  refine ⟨?_, ?_, ?_, ?_, ?_⟩
  · intro h52
    have hga : getAddress (hexlify (p.take 20)) = .ok (checksumAddr (hexlify (p.take 20))) := by
      unfold getAddress
      rw [if_pos (isHexAddress_hexlify _ (htake (by omega)))]
    simp only [part000ParseDepositPayload]
    rw [if_neg (by omega), hga, beNat_eq_beSpec]
  · intro h
    simp only [part000ParseDepositPayload]
    rw [if_pos h]
  · intro h21
    have hga : getAddress (hexlify (p.take 20)) = .ok (checksumAddr (hexlify (p.take 20))) := by
      unfold getAddress
      rw [if_pos (isHexAddress_hexlify _ (htake (by omega)))]
    simp only [srcParseDepositPayload]
    rw [if_neg (by rw [htake (by omega)]; omega),
      if_neg (by rw [List.length_take, List.length_drop]; omega), hga, beNat_eq_beSpec]
  · intro h
    simp only [srcParseDepositPayload]
    rw [if_pos (by rw [List.length_take]; omega)]
  · intro h
    simp only [srcParseDepositPayload]
    rw [if_neg (by rw [htake (by omega)]; omega),
      if_pos (by rw [List.length_take, List.length_drop]; omega)]

/-- Witness for c3_deposit_decode_amended at the concrete 52-byte
payload. -/
theorem c3_deposit_decode_witness :
    part000ParseDepositPayload dep52
      = .ok (checksumAddr (hexlify (dep52.take 20)), beSpec ((dep52.drop 20).take 32)) :=
  (c3_deposit_decode_amended dep52).1 (by decide)

theorem part000Parse_len52 (p : List Byte) (h52 : p.length = 52) :
    part000ParseDepositPayload p
      = .ok (checksumAddr (hexlify (p.take 20)), beNat ((p.drop 20).take 32)) := by
  have hga : getAddress (hexlify (p.take 20)) = .ok (checksumAddr (hexlify (p.take 20))) := by
    unfold getAddress
    rw [if_pos (isHexAddress_hexlify _ (by rw [List.length_take]; omega))]
  simp only [part000ParseDepositPayload]
  rw [if_neg (by omega), hga]

theorem checksumAddr_ne_empty (s : String) : checksumAddr s ≠ "" := by
  unfold checksumAddr
  intro h
  have hd := congrArg String.data h
  rw [String.data_append] at hd
  simp at hd

theorem depositPath_ok (d : List Byte → Except DepErr (String × Nat)) (st : Ledger)
    (p : List Byte) (r : String) (a : Nat) (hd : d p = .ok (r, a)) (hr : r ≠ "") :
    depositPath d st p
      = ⟨updBal st r (st r + a), "accept",
          [Ev.notice ("Deposit OK: recipient=" ++ r ++ ", newBalance="
            ++ toString (updBal st r (st r + a) r))]⟩ := by
  unfold depositPath
  rw [hd]
  have hpd : part000ProcessDeposit st r a = .ok (updBal st r (st r + a)) := by
    simp [part000ProcessDeposit, hr]
  show (match part000ProcessDeposit st r a with
      | Except.error e =>
          ({ ledger := st, status := "reject",
             events := [Ev.report ("Error: " ++ e)] } : HOut)
      | Except.ok st' =>
          { ledger := st', status := "accept",
            events := [Ev.notice ("Deposit OK: recipient=" ++ r ++ ", newBalance="
              ++ toString (st' r))] })
    = _
  rw [hpd]

/-- Claim C7 (amended): the binary deposit path credits the ledger under
the canonical checksummed key derived from the payload's first 20 bytes,
but a balance query uses the user string exactly as sent, with no
canonicalization: only the exact canonical string observes the balance,
and any other key (including other casings) reads its own entry. -/
theorem c7_keying_amended :
    (∀ st (p : List Byte), p.length = 52 →
      (depositPath part000ParseDepositPayload st p).ledger
          (checksumAddr (hexlify (p.take 20)))
        = st (checksumAddr (hexlify (p.take 20))) + beSpec ((p.drop 20).take 32)) ∧
    (∀ st (p : List Byte) v, p.length = 52 → v ≠ checksumAddr (hexlify (p.take 20)) →
      (depositPath part000ParseDepositPayload st p).ledger v = st v) ∧
    (∀ st user, user ≠ "" →
      (part000InspectParsed st (balanceQueryObj user)).events
        = [Ev.report ("Balance of " ++ user ++ " = " ++ toString (st user) ++ " wei")]) := by
  refine ⟨?_, ?_, ?_⟩
  · intro st p h52
    rw [depositPath_ok part000ParseDepositPayload st p _ _ (part000Parse_len52 p h52)
      (checksumAddr_ne_empty _)]
    show updBal st (checksumAddr (hexlify (p.take 20)))
        (st (checksumAddr (hexlify (p.take 20))) + (beNat ((p.drop 20).take 32) : Int))
        (checksumAddr (hexlify (p.take 20)))
      = st (checksumAddr (hexlify (p.take 20))) + (beSpec ((p.drop 20).take 32) : Int)
    rw [updBal_self, beNat_eq_beSpec]
  · intro st p v h52 hv
    rw [depositPath_ok part000ParseDepositPayload st p _ _ (part000Parse_len52 p h52)
      (checksumAddr_ne_empty _)]
    exact updBal_other _ _ _ hv
  · intro st user hu
    simp [part000InspectParsed, balanceQueryObj, jsGet, isBalanceAction, jsTruthy,
      jsTruthyV, jsToStr, hu]

/-- Witness for c7_keying_amended: the raw-keyed balance query on the
concrete ledger. -/
theorem c7_keying_witness :
    (part000InspectParsed c1State (balanceQueryObj addrTwos)).events
      = [Ev.report ("Balance of " ++ addrTwos ++ " = 5 wei")] := by
  rw [c7_keying_amended.2.2 c1State addrTwos (by decide)]
  decide

/-- Property of a handler result: the status is accept or reject, and a
reject comes with a report event. -/
def okHOut (h : HOut) : Prop :=
  (h.status = "accept" ∨ h.status = "reject") ∧
  (h.status = "reject" → ∃ m, Ev.report m ∈ h.events)

theorem okHOut_accept (st : Ledger) (evs : List Ev) :
    okHOut ⟨st, "accept", evs⟩ :=
  ⟨Or.inl rfl, fun hc => by simp [okHOut] at hc⟩

theorem okHOut_reject_report (st : Ledger) (m : String) :
    okHOut ⟨st, "reject", [Ev.report m]⟩ :=
  ⟨Or.inr rfl, fun _ => ⟨m, List.mem_singleton_self _⟩⟩

theorem depositPath_status (d : List Byte → Except DepErr (String × Nat)) (st : Ledger)
    (p : List Byte) : okHOut (depositPath d st p) := by
  unfold depositPath
  cases d p with
  | error e => exact okHOut_reject_report st _
  | ok rp =>
      obtain ⟨r, a⟩ := rp
      show okHOut (match part000ProcessDeposit st r a with
        | Except.error e =>
            ({ ledger := st, status := "reject",
               events := [Ev.report ("Error: " ++ e)] } : HOut)
        | Except.ok st' =>
            { ledger := st', status := "accept",
              events := [Ev.notice ("Deposit OK: recipient=" ++ r ++ ", newBalance="
                ++ toString (st' r))] })
      cases part000ProcessDeposit st r a with
      | error e => exact okHOut_reject_report st _
      | ok st' => exact okHOut_accept st' _

theorem part000HandleParsed_status (st : Ledger) (decoded : String) (parsed : Json) :
    okHOut (part000HandleParsed st decoded parsed) := by
  unfold part000HandleParsed
  split
  · cases getAddressJson (jsGet parsed "win") with
    | error e => exact okHOut_reject_report st _
    | ok winner =>
        show okHOut (match getAddressJson (jsGet parsed "loss") with
          | Except.error e =>
              ({ ledger := st, status := "reject",
                 events := [Ev.report ("Error: " ++ e)] } : HOut)
          | Except.ok loser =>
              if 0 < st loser then
                { ledger := updBal st loser 0, status := "accept",
                  events := [Ev.voucher winner (st loser),
                    Ev.notice ("Voucher issued: " ++ winner ++ " gets "
                      ++ toString (st loser) ++ " wei")] }
              else
                { ledger := st, status := "accept",
                  events := [Ev.report ("Loser " ++ loser
                    ++ " has no balance to transfer.")] })
        cases getAddressJson (jsGet parsed "loss") with
        | error e => exact okHOut_reject_report st _
        | ok loser =>
            show okHOut (if 0 < st loser then
                ({ ledger := updBal st loser 0, status := "accept",
                   events := [Ev.voucher winner (st loser),
                     Ev.notice ("Voucher issued: " ++ winner ++ " gets "
                       ++ toString (st loser) ++ " wei")] } : HOut)
              else
                { ledger := st, status := "accept",
                  events := [Ev.report ("Loser " ++ loser
                    ++ " has no balance to transfer.")] })
            by_cases hpos : 0 < st loser
            · rw [if_pos hpos]
              exact okHOut_accept _ _
            · rw [if_neg hpos]
              exact okHOut_accept st _
  · exact okHOut_accept st _

theorem part000HandleAdvance_status (st : Ledger) (p : List Byte) :
    okHOut (part000HandleAdvance st p) := by
  cases hp : parseJson (bytesToString p) with
  | none =>
      have hred : part000HandleAdvance st p = depositPath part000ParseDepositPayload st p := by
        simp only [part000HandleAdvance]
        rw [hp]
      rw [hred]
      exact depositPath_status _ st p
  | some parsed =>
      have hred : part000HandleAdvance st p
          = if (jsTruthyV parsed && isObjLike parsed) = true then
              part000HandleParsed st (bytesToString p) parsed
            else depositPath part000ParseDepositPayload st p := by
        simp only [part000HandleAdvance]
        rw [hp]
      rw [hred]
      by_cases hb : (jsTruthyV parsed && isObjLike parsed) = true
      · rw [if_pos hb]
        exact part000HandleParsed_status st _ parsed
      · rw [if_neg hb]
        exact depositPath_status _ st p

theorem part000InspectParsed_status (st : Ledger) (parsed : Json) :
    okHOut (part000InspectParsed st parsed) := by
  unfold part000InspectParsed
  split
  · exact okHOut_accept st _
  · exact okHOut_accept st _

theorem part000HandleInspect_status (st : Ledger) (p : List Byte) :
    okHOut (part000HandleInspect st p) := by
  unfold part000HandleInspect
  cases parseJson (bytesToString p) with
  | none => exact okHOut_reject_report st _
  | some parsed => exact part000InspectParsed_status st parsed

theorem part001Dispatch_status (st : Ledger) (parsed : Json) :
    okHOut (part001Dispatch st parsed) := by
  unfold part001Dispatch
  split
  · show okHOut (match part001ProcessDeposit st parsed with
      | Except.error e =>
          ({ ledger := st, status := "reject",
             events := [Ev.report ("Error: " ++ e)] } : HOut)
      | Except.ok st' =>
          { ledger := st', status := "accept",
            events := [Ev.notice ("Deposit OK: sender="
              ++ (match jsGet parsed "sender" with
                  | some sv => jsToStr sv
                  | none => "undefined")
              ++ ", newBalance="
              ++ toString (st' (match jsGet parsed "sender" with
                  | some sv => jsToStr sv
                  | none => "undefined")))] })
    cases part001ProcessDeposit st parsed with
    | error e => exact okHOut_reject_report st _
    | ok st' => exact okHOut_accept st' _
  · show okHOut (match part001ProcessTransfer st parsed with
      | Except.error e =>
          ({ ledger := st, status := "reject",
             events := [Ev.report ("Error: " ++ e)] } : HOut)
      | Except.ok st' =>
          { ledger := st', status := "accept",
            events := [Ev.notice ("Transfer OK: from="
              ++ (match jsGet parsed "from" with
                  | some v => jsToStr v
                  | none => "undefined")
              ++ ", to="
              ++ (match jsGet parsed "to" with
                  | some v => jsToStr v
                  | none => "undefined")
              ++ ", amount="
              ++ (match jsGet parsed "amount" with
                  | some v => jsToStr v
                  | none => "undefined"))] })
    cases part001ProcessTransfer st parsed with
    | error e => exact okHOut_reject_report st _
    | ok st' => exact okHOut_accept st' _
  · exact okHOut_accept st _

theorem part001HandleAdvance_status (st : Ledger) (p : List Byte) :
    okHOut (part001HandleAdvance st p) := by
  unfold part001HandleAdvance
  cases parseJson (bytesToString p) with
  | none => exact okHOut_reject_report st _
  | some parsed => exact part001Dispatch_status st parsed

theorem part001InspectParsed_status (st : Ledger) (parsed : Json) :
    okHOut (part001InspectParsed st parsed) := by
  unfold part001InspectParsed
  split
  · exact okHOut_accept st _
  · exact okHOut_accept st _

theorem part001HandleInspect_status (st : Ledger) (p : List Byte) :
    (part001HandleInspect st p).status = "accept" ∨
      (part001HandleInspect st p).status = "reject" := by
  unfold part001HandleInspect
  cases parseJson (bytesToString p) with
  | none => exact Or.inr rfl
  | some parsed => exact (part001InspectParsed_status st parsed).1

theorem srcHandleAdvance_status (st : Ledger) (p : List Byte) :
    okHOut (srcHandleAdvance st p) := by
  unfold srcHandleAdvance
  exact depositPath_status _ st p

/-- Claim C8 (amended): every handler of the three variants catches its
errors and returns either accept or reject (it never propagates an
exception to the loop), and on reject a report event is emitted by every
handler except part_001 handleInspect, whose catch block only logs and
sends no report (see the counterexample). -/
theorem c8_handlers_amended (st : Ledger) (p : List Byte) :
    ((part000HandleAdvance st p).status = "accept" ∨
      (part000HandleAdvance st p).status = "reject") ∧
    ((part000HandleAdvance st p).status = "reject" →
      ∃ m, Ev.report m ∈ (part000HandleAdvance st p).events) ∧
    ((part000HandleInspect st p).status = "accept" ∨
      (part000HandleInspect st p).status = "reject") ∧
    ((part000HandleInspect st p).status = "reject" →
      ∃ m, Ev.report m ∈ (part000HandleInspect st p).events) ∧
    ((srcHandleAdvance st p).status = "accept" ∨
      (srcHandleAdvance st p).status = "reject") ∧
    ((srcHandleAdvance st p).status = "reject" →
      ∃ m, Ev.report m ∈ (srcHandleAdvance st p).events) ∧
    ((part001HandleAdvance st p).status = "accept" ∨
      (part001HandleAdvance st p).status = "reject") ∧
    ((part001HandleAdvance st p).status = "reject" →
      ∃ m, Ev.report m ∈ (part001HandleAdvance st p).events) ∧
    ((part001HandleInspect st p).status = "accept" ∨
      (part001HandleInspect st p).status = "reject") :=
  ⟨(part000HandleAdvance_status st p).1, (part000HandleAdvance_status st p).2,
   (part000HandleInspect_status st p).1, (part000HandleInspect_status st p).2,
   (srcHandleAdvance_status st p).1, (srcHandleAdvance_status st p).2,
   (part001HandleAdvance_status st p).1, (part001HandleAdvance_status st p).2,
   part001HandleInspect_status st p⟩

/-- Witness for c8_handlers_amended: the rejected one-byte payload makes
part_000 handleAdvance emit a report. -/
theorem c8_handlers_witness :
    ∃ m, Ev.report m ∈ (part000HandleAdvance emptyLedger pOneChar).events :=
  (c8_handlers_amended emptyLedger pOneChar).2.1 (by decide)

/-- Claim C9 (amended): in the part_000 / src/index.js loop, the status
carried by the i-th finish call is the fold of per-request result
statuses over the first i host responses starting from the current
status: the first call of a fresh loop carries accept, a 202 retries with
the same status, and after a handled request the next call carries that
handler's status (noInput and unknown request types leave it unchanged).
The part_001 loop does not thread statuses this way (see the
counterexample): its fetching call always carries accept. -/
theorem c9_loop_amended :
    (∀ (rs : List HostResp) (st : Ledger) (status : String) (i : Nat), i < rs.length →
      (part000Loop st status rs).get? i
        = some (List.foldl part000Step (st, status) (List.take i rs)).2) ∧
    (∀ (st : Ledger) (status : String) (rs : List HostResp),
      part000Loop st status (HostResp.noInput :: rs)
        = status :: part000Loop st status rs) ∧
    (∀ (st : Ledger) (status : String) (p : List Byte) (rs : List HostResp),
      part000Loop st status (HostResp.advance p :: rs)
        = status :: part000Loop (part000HandleAdvance st p).ledger
            (part000HandleAdvance st p).status rs) ∧
    (∀ (st : Ledger) (status : String) (p : List Byte) (rs : List HostResp),
      part000Loop st status (HostResp.inspect p :: rs)
        = status :: part000Loop (part000HandleInspect st p).ledger
            (part000HandleInspect st p).status rs) ∧
    (∀ rs : List HostResp, rs ≠ [] →
      (part000Loop emptyLedger "accept" rs).head? = some "accept") := by
  refine ⟨?_, fun _ _ _ => rfl, fun _ _ _ _ => rfl, fun _ _ _ _ => rfl, ?_⟩
  · intro rs
    induction rs with
    | nil =>
        intro st status i h
        exact absurd h (by simp)
    | cons r rs ih =>
        intro st status i h
        cases i with
        | zero => cases r <;> rfl
        | succ i =>
            cases r with
            | noInput => exact ih st status i (Nat.lt_of_succ_lt_succ h)
            | advance p => exact ih _ _ i (Nat.lt_of_succ_lt_succ h)
            | inspect p => exact ih _ _ i (Nat.lt_of_succ_lt_succ h)
            | unknown => exact ih st status i (Nat.lt_of_succ_lt_succ h)
  · intro rs h
    cases rs with
    | nil => exact absurd rfl h
    | cons r rs => cases r <;> rfl

/-- Witness for c9_loop_amended: the second finish call of the concrete
two-response run carries the folded status of the first input. -/
theorem c9_loop_witness :
    (part000Loop emptyLedger "accept"
        [HostResp.advance pOneChar, HostResp.noInput]).get? 1
      = some (List.foldl part000Step (emptyLedger, "accept")
          (List.take 1 [HostResp.advance pOneChar, HostResp.noInput])).2 :=
  c9_loop_amended.1 [HostResp.advance pOneChar, HostResp.noInput]
    emptyLedger "accept" 1 (by decide)

end CartesiNode
